import Mathlib

/-!
Verification development for the Twilio ↔ realtime-model session relay.

The definitions below are a shallow embedding of the relay's session
manager (`websocket-server/src/sessionManager.ts`), its function-handler
registry (`functionHandlers.ts`), and the shared `sessionControl` record.
WebSocket handles are modelled by their observable state (absent, open,
or not-open), the session registry `Map` by an association list with
delete-then-insert rebinding, and each event handler by a pure function
from the session (and shared control) state to the updated state plus the
list of outbound actions it performs.  JavaScript numeric timestamps are
modelled as integers; `undefined` fields as `Option`.
-/

namespace Relay

/-- Observable state of a WebSocket handle: `readyState == OPEN` or not.
A missing handle (`undefined` in the source) is `Option.none` at the use
site. -/
inductive ConnState where
  | opened
  | notOpen
deriving DecidableEq, Repr

/-- `isOpen(ws)` from sessionManager.ts: the handle exists and its
`readyState` is `OPEN`. -/
def isOpen : Option ConnState → Bool
  | some ConnState.opened => true
  | _ => false

/-- The per-call `Session` record of sessionManager.ts, restricted to the
fields the verified handlers read or write.  `none` models an `undefined`
field. -/
structure Session where
  twilioConn : Option ConnState := none
  frontendConn : Option ConnState := none
  modelConn : Option ConnState := none
  streamSid : Option String := none
  lastAssistantItem : Option String := none
  responseStartTimestamp : Option Int := none
  latestMediaTimestamp : Option Int := none
  audioDurationMs : Option Int := none
  audioChunkCount : Option Int := none
deriving DecidableEq, Repr

/-- Outbound events written to the model leg (`jsonSend(session.modelConn, …)`). -/
inductive ModelEvent where
  | truncate (itemId : String) (contentIndex : Nat) (audioEndMs : Int)
  | itemCreateFunctionOutput (callId : String) (output : String)
  | responseCreate
  | inputAudioAppend (payload : String)
deriving DecidableEq, Repr

/-- Outbound events written to the telephony (Twilio) leg. -/
inductive TwilioEvent where
  | media (payload : String)
  | mark
  | clear
deriving DecidableEq, Repr

/-- A side effect performed by a handler: a send on one of the legs, a
forward to the observer (frontend) leg, or a close of a leg. -/
inductive Action where
  | sendModel (e : ModelEvent)
  | sendTwilio (e : TwilioEvent)
  | sendFrontend
  | closeModel
  | closeTwilio
  | startFunctionCall (name : String) (callId : String) (arguments : String)
deriving DecidableEq, Repr

/-- The four-field reset performed whenever utterance tracking is cleared
(`lastAssistantItem`, `responseStartTimestamp`, `audioDurationMs`,
`audioChunkCount` all set to `undefined`). -/
def resetAudioTracking (s : Session) : Session :=
  { s with
    lastAssistantItem := none
    responseStartTimestamp := none
    audioDurationMs := none
    audioChunkCount := none }

/-- `MIN_TRUNCATION_MS` from `handleTruncation`. -/
def MIN_TRUNCATION_MS : Int := 100

/-- Shallow embedding of `handleTruncation(session)`:
returns the updated session together with the outbound actions, in the
order the source performs them.  The over-run guard mirrors the source's
JavaScript truthiness test `session.audioDurationMs && …` (skipped when
the field is `undefined` or `0`). -/
def handleTruncation (s : Session) : Session × List Action :=
  match s.lastAssistantItem, s.responseStartTimestamp with
  | some lastItem, some rst =>
    let elapsedMs : Int := s.latestMediaTimestamp.getD 0 - rst
    let audio_end_ms : Int := if elapsedMs > 0 then elapsedMs else 0
    if audio_end_ms < MIN_TRUNCATION_MS then
      (resetAudioTracking s, [])
    else
      let dur : Int := s.audioDurationMs.getD 0
      if dur ≠ 0 ∧ audio_end_ms > dur + 100 then
        (resetAudioTracking s,
          if s.twilioConn.isSome ∧ s.streamSid.isSome ∧ isOpen s.twilioConn then
            [Action.sendTwilio TwilioEvent.clear]
          else [])
      else
        let modelActs : List Action :=
          if s.modelConn.isSome ∧ isOpen s.modelConn then
            [Action.sendModel (ModelEvent.truncate lastItem 0 audio_end_ms)]
          else []
        let twilioActs : List Action :=
          if s.twilioConn.isSome ∧ s.streamSid.isSome ∧ isOpen s.twilioConn then
            [Action.sendTwilio TwilioEvent.clear]
          else []
        (resetAudioTracking s, modelActs ++ twilioActs)
  | _, _ => (s, [])

/-- The clamped elapsed playback time of the current utterance:
`latestMediaTimestamp − responseStartTimestamp`, clamped to `≥ 0`
(missing timestamps read as `0`, as in the source). -/
def clampedElapsed (s : Session) : Int :=
  let e := s.latestMediaTimestamp.getD 0 - s.responseStartTimestamp.getD 0
  if e > 0 then e else 0

/-- Whether an action list contains a `conversation.item.truncate`
instruction to the model leg. -/
def sendsTruncate (acts : List Action) : Bool :=
  acts.any fun a =>
    match a with
    | Action.sendModel (ModelEvent.truncate _ _ _) => true
    | _ => false

/-- Whether an action list contains a `clear` event to the telephony leg. -/
def sendsClear (acts : List Action) : Bool :=
  acts.any fun a =>
    match a with
    | Action.sendTwilio TwilioEvent.clear => true
    | _ => false

/-- All four utterance-tracking fields of a session are unset. -/
def trackingCleared (s : Session) : Prop :=
  s.lastAssistantItem = none ∧ s.responseStartTimestamp = none ∧
    s.audioDurationMs = none ∧ s.audioChunkCount = none

/-- A session exhibiting the over-run condition of the spec with a
cumulative-sent-audio estimate of `0` ms: elapsed `201` ms exceeds the
estimate by more than the `100` ms slack. -/
def overrunZeroEstimateSession : Session :=
  { twilioConn := some ConnState.opened
    modelConn := some ConnState.opened
    streamSid := some "MZ0001"
    lastAssistantItem := some "item_1"
    responseStartTimestamp := some 0
    latestMediaTimestamp := some 201
    audioDurationMs := some 0
    audioChunkCount := some 0 }

/-- C1 counterexample: in `overrunZeroEstimateSession` an utterance is in
flight, the clamped elapsed time (201 ms) is at least 100 ms and exceeds
the tracked cumulative-sent-audio estimate (`audioDurationMs = 0` ms) by
more than the 100 ms slack margin, yet `handleTruncation` DOES send a
`conversation.item.truncate` instruction to the model leg: the source's
over-run guard tests JavaScript truthiness of `audioDurationMs`, so an
estimate of `0` ms skips the guard and the claim's promised behaviour
does not occur. -/
theorem C1_counterexample :
    overrunZeroEstimateSession.lastAssistantItem = some "item_1" ∧
    overrunZeroEstimateSession.responseStartTimestamp = some 0 ∧
    overrunZeroEstimateSession.audioDurationMs = some 0 ∧
    MIN_TRUNCATION_MS ≤ clampedElapsed overrunZeroEstimateSession ∧
    clampedElapsed overrunZeroEstimateSession > 0 + 100 ∧
    sendsTruncate (handleTruncation overrunZeroEstimateSession).2 = true := by
  decide

/-- C1 (amended): if additionally the cumulative-sent-audio estimate is
nonzero, then a speech-started signal with clamped elapsed ≥ 100 ms that
exceeds the estimate by more than the 100 ms slack sends exactly a clear
event to the (open) telephony leg, sends no truncate instruction to the
model leg, and unsets all four utterance-tracking fields. -/
theorem C1_overrun_guard (s : Session) (it : String) (rst lmt d : Int)
    (hitem : s.lastAssistantItem = some it)
    (hrst : s.responseStartTimestamp = some rst)
    (hlmt : s.latestMediaTimestamp = some lmt)
    (hdur : s.audioDurationMs = some d)
    (hd0 : d ≠ 0)
    (hmin : MIN_TRUNCATION_MS ≤ clampedElapsed s)
    (hover : clampedElapsed s > d + 100)
    (htw : s.twilioConn = some ConnState.opened)
    (hsid : s.streamSid.isSome = true) :
    (handleTruncation s).2 = [Action.sendTwilio TwilioEvent.clear] ∧
    sendsTruncate (handleTruncation s).2 = false ∧
    trackingCleared (handleTruncation s).1 := by
  have hce : clampedElapsed s = if lmt - rst > 0 then lmt - rst else 0 := by
    simp [clampedElapsed, hlmt, hrst]
  have hpos : 0 < lmt - rst := by
    rcases lt_or_ge 0 (lmt - rst) with h | h
    · exact h
    · rw [hce, if_neg (by omega)] at hmin
      norm_num [MIN_TRUNCATION_MS] at hmin
  have hclamp : clampedElapsed s = lmt - rst := by rw [hce, if_pos hpos]
  have hmin' : (100 : Int) ≤ lmt - rst := by
    rw [hclamp] at hmin; simpa [MIN_TRUNCATION_MS] using hmin
  have hover' : lmt - rst > d + 100 := by rwa [hclamp] at hover
  have heq : handleTruncation s =
      (resetAudioTracking s, [Action.sendTwilio TwilioEvent.clear]) := by
    unfold handleTruncation
    rw [hitem, hrst]
    simp only [hlmt, hdur, Option.getD_some, htw, hsid, isOpen, Option.isSome_some]
    rw [if_pos hpos]
    rw [if_neg (show ¬ (lmt - rst < MIN_TRUNCATION_MS) by
      simp only [MIN_TRUNCATION_MS]; omega)]
    rw [if_pos ⟨hd0, hover'⟩]
    simp
  rw [heq]
  refine ⟨rfl, rfl, ?_⟩
  simp [trackingCleared, resetAudioTracking]

/-- Witness for `C1_overrun_guard` at a concrete session. -/
theorem C1_overrun_guard_witness :
    (handleTruncation
        { twilioConn := some ConnState.opened
          modelConn := some ConnState.opened
          streamSid := some "MZ0002"
          lastAssistantItem := some "item_2"
          responseStartTimestamp := some 0
          latestMediaTimestamp := some 200
          audioDurationMs := some 20
          audioChunkCount := some 1 }).2 =
      [Action.sendTwilio TwilioEvent.clear] := by
  exact (C1_overrun_guard
    { twilioConn := some ConnState.opened
      modelConn := some ConnState.opened
      streamSid := some "MZ0002"
      lastAssistantItem := some "item_2"
      responseStartTimestamp := some 0
      latestMediaTimestamp := some 200
      audioDurationMs := some 20
      audioChunkCount := some 1 }
    "item_2" 0 200 20 rfl rfl rfl rfl (by decide) (by decide) (by decide)
    rfl (by decide)).1

/-- C2: with an utterance in flight and clamped elapsed below the 100 ms
minimum threshold, `handleTruncation` performs no outbound action at all
(no truncate, no clear) and unsets all four utterance-tracking fields. -/
theorem C2_too_short_guard (s : Session) (it : String) (rst : Int)
    (hitem : s.lastAssistantItem = some it)
    (hrst : s.responseStartTimestamp = some rst)
    (hshort : clampedElapsed s < MIN_TRUNCATION_MS) :
    (handleTruncation s).2 = [] ∧ trackingCleared (handleTruncation s).1 := by
  have hce : clampedElapsed s =
      (if s.latestMediaTimestamp.getD 0 - rst > 0 then
        s.latestMediaTimestamp.getD 0 - rst else 0) := by
    simp [clampedElapsed, hrst]
  have h : (if s.latestMediaTimestamp.getD 0 - rst > 0 then
      s.latestMediaTimestamp.getD 0 - rst else 0) < MIN_TRUNCATION_MS := by
    rw [← hce]; exact hshort
  have heq : handleTruncation s = (resetAudioTracking s, []) := by
    unfold handleTruncation
    rw [hitem, hrst]
    simp only [if_pos h]
  rw [heq]
  exact ⟨rfl, by simp [trackingCleared, resetAudioTracking]⟩

/-- Witness for `C2_too_short_guard` at a concrete session. -/
theorem C2_too_short_guard_witness :
    (handleTruncation
        { twilioConn := some ConnState.opened
          modelConn := some ConnState.opened
          streamSid := some "MZ0003"
          lastAssistantItem := some "item_3"
          responseStartTimestamp := some 0
          latestMediaTimestamp := some 50
          audioDurationMs := some 40
          audioChunkCount := some 2 }).2 = [] := by
  exact (C2_too_short_guard
    { twilioConn := some ConnState.opened
      modelConn := some ConnState.opened
      streamSid := some "MZ0003"
      lastAssistantItem := some "item_3"
      responseStartTimestamp := some 0
      latestMediaTimestamp := some 50
      audioDurationMs := some 40
      audioChunkCount := some 2 }
    "item_3" 0 rfl rfl (by decide)).1

/-- C3: with an utterance in flight, both legs open, the stream id known,
and neither the too-short guard nor the over-run guard applying,
`handleTruncation` sends exactly one `conversation.item.truncate`
instruction carrying `(lastAssistantItem, content_index 0, clamped
elapsed)` followed by exactly one telephony-leg clear, and unsets all
four utterance-tracking fields; with no utterance in flight it is a
strict no-op. -/
theorem C3_truncate_and_noop (s : Session) :
    (∀ it rst, s.lastAssistantItem = some it →
      s.responseStartTimestamp = some rst →
      MIN_TRUNCATION_MS ≤ clampedElapsed s →
      ¬ (s.audioDurationMs.getD 0 ≠ 0 ∧
          clampedElapsed s > s.audioDurationMs.getD 0 + 100) →
      s.modelConn = some ConnState.opened →
      s.twilioConn = some ConnState.opened →
      s.streamSid.isSome = true →
      (handleTruncation s).2 =
        [Action.sendModel (ModelEvent.truncate it 0 (clampedElapsed s)),
          Action.sendTwilio TwilioEvent.clear] ∧
      trackingCleared (handleTruncation s).1) ∧
    ((s.lastAssistantItem = none ∨ s.responseStartTimestamp = none) →
      handleTruncation s = (s, [])) := by
  constructor
  · intro it rst hitem hrst hmin hguard hmodel htw hsid
    have hce : clampedElapsed s =
        (if s.latestMediaTimestamp.getD 0 - rst > 0 then
          s.latestMediaTimestamp.getD 0 - rst else 0) := by
      simp [clampedElapsed, hrst]
    have hpos : 0 < s.latestMediaTimestamp.getD 0 - rst := by
      rcases lt_or_ge 0 (s.latestMediaTimestamp.getD 0 - rst) with h | h
      · exact h
      · rw [hce, if_neg (by omega)] at hmin
        norm_num [MIN_TRUNCATION_MS] at hmin
    have hclamp : clampedElapsed s = s.latestMediaTimestamp.getD 0 - rst := by
      rw [hce, if_pos hpos]
    have hmin' : ¬ (s.latestMediaTimestamp.getD 0 - rst < MIN_TRUNCATION_MS) := by
      rw [hclamp] at hmin; omega
    have hguard' : ¬ (s.audioDurationMs.getD 0 ≠ 0 ∧
        s.latestMediaTimestamp.getD 0 - rst > s.audioDurationMs.getD 0 + 100) := by
      rw [hclamp] at hguard; exact hguard
    have heq : handleTruncation s =
        (resetAudioTracking s,
          [Action.sendModel
              (ModelEvent.truncate it 0 (s.latestMediaTimestamp.getD 0 - rst)),
            Action.sendTwilio TwilioEvent.clear]) := by
      unfold handleTruncation
      rw [hitem, hrst]
      simp only [hmodel, htw, hsid, isOpen, Option.isSome_some]
      rw [if_pos hpos]
      rw [if_neg hmin']
      rw [if_neg hguard']
      simp
    rw [hclamp, heq]
    exact ⟨rfl, by simp [trackingCleared, resetAudioTracking]⟩
  · intro h
    rcases h with h | h
    · unfold handleTruncation
      rw [h]
    · unfold handleTruncation
      rw [h]
      cases hfst : s.lastAssistantItem <;> rfl

/-- Witness for `C3_truncate_and_noop` at a concrete session. -/
theorem C3_truncate_and_noop_witness :
    (handleTruncation
        { twilioConn := some ConnState.opened
          modelConn := some ConnState.opened
          streamSid := some "MZ0004"
          lastAssistantItem := some "item_4"
          responseStartTimestamp := some 0
          latestMediaTimestamp := some 500
          audioDurationMs := some 480
          audioChunkCount := some 24 }).2 =
      [Action.sendModel (ModelEvent.truncate "item_4" 0 500),
        Action.sendTwilio TwilioEvent.clear] := by
  have h := ((C3_truncate_and_noop
    { twilioConn := some ConnState.opened
      modelConn := some ConnState.opened
      streamSid := some "MZ0004"
      lastAssistantItem := some "item_4"
      responseStartTimestamp := some 0
      latestMediaTimestamp := some 500
      audioDurationMs := some 480
      audioChunkCount := some 24 }).1
    "item_4" 0 rfl rfl (by decide) (by decide) rfl rfl (by decide)).1
  simpa using h

/-- Prefix test on character lists (`isPrefixOf` over `String.data`). -/
def charsAsPrefix : List Char → List Char → Bool
  | [], _ => true
  | _ :: _, [] => false
  | a :: as, b :: bs => a == b && charsAsPrefix as bs

/-- Infix test on character lists: does `p` occur contiguously in `s`? -/
def charsInfix (p s : List Char) : Bool :=
  match s with
  | [] => charsAsPrefix p []
  | _ :: rest => charsAsPrefix p s || charsInfix p rest

/-- `haystack.includes(needle)` from JavaScript, on our string model. -/
def strIncludes (haystack needle : String) : Bool :=
  charsInfix needle.data haystack.data

/-- The truncation-timing error test of `handleModelMessage`:
`event.error?.type === "invalid_value" &&
 event.error?.message?.includes("Audio content") &&
 event.error?.message?.includes("shorter than")`. -/
def isTruncationTimingError (errType errMsg : Option String) : Bool :=
  errType == some "invalid_value" &&
    (match errMsg with
     | some m => strIncludes m "Audio content" && strIncludes m "shorter than"
     | none => false)

/-- Inbound model-leg events, restricted to the fields `handleModelMessage`
reads. `errorEvt` carries `event.error?.type` and `event.error?.message`;
`outputItemDone` carries whether the finished item is a function call and
its name, call id and raw argument string. -/
inductive MEvent where
  | errorEvt (errType : Option String) (errMsg : Option String)
  | speechStarted
  | speechStopped
  | responseDone
  | sessionCreated
  | userTranscriptCompleted (transcript : String)
  | assistantTranscriptDone (transcript : String)
  | outputItemAdded
  | audioDelta (itemId : Option String) (delta : Option String)
  | outputItemDone (isFunctionCall : Bool) (name : String) (callId : String)
      (arguments : String)
deriving DecidableEq, Repr

/-- `jsonSend(session.frontendConn, event)`: forwards the event to the
observer leg when that leg is open, otherwise drops it silently. -/
def forwardFrontend (s : Session) : List Action :=
  if isOpen s.frontendConn then [Action.sendFrontend] else []

/-- Marker action recorded when `handleModelMessage` kicks off the
asynchronous `handleFunctionCall(item)` promise; the completion callback
is embedded separately as `functionCallCompletion`. -/
def startFunctionCallActs (isFn : Bool) (name callId arguments : String) :
    List Action :=
  if isFn then [Action.startFunctionCall name callId arguments] else []

/-- Shallow embedding of `handleModelMessage(data, session)`:
the truncation-timing error branch returns before the observer-leg
forward; every other event is forwarded and then dispatched through the
switch. -/
def handleModelMessage (s : Session) (e : MEvent) : Session × List Action :=
  match e with
  | MEvent.errorEvt t m =>
    if isTruncationTimingError t m then
      (resetAudioTracking s,
        if s.twilioConn.isSome ∧ s.streamSid.isSome ∧ isOpen s.twilioConn then
          [Action.sendTwilio TwilioEvent.clear]
        else [])
    else (s, forwardFrontend s)
  | MEvent.speechStarted =>
    let r := handleTruncation s
    (r.1, forwardFrontend s ++ r.2)
  | MEvent.audioDelta itemId delta =>
    if s.twilioConn.isSome ∧ s.streamSid.isSome then
      let s1 :=
        if s.responseStartTimestamp.isNone then
          { s with
            responseStartTimestamp := some (s.latestMediaTimestamp.getD 0)
            audioDurationMs := some 0
            audioChunkCount := some 0 }
        else s
      let s2 :=
        match itemId with
        | some i => { s1 with lastAssistantItem := some i }
        | none => s1
      let s3 :=
        match delta with
        | some _ =>
          let cnt := s2.audioChunkCount.getD 0 + 1
          { s2 with audioChunkCount := some cnt, audioDurationMs := some (cnt * 20) }
        | none => s2
      let sendActs :=
        if isOpen s.twilioConn then
          [Action.sendTwilio (TwilioEvent.media (delta.getD "")),
            Action.sendTwilio TwilioEvent.mark]
        else []
      (s3, forwardFrontend s ++ sendActs)
    else (s, forwardFrontend s)
  | MEvent.outputItemDone isFn name callId arguments =>
    (s, forwardFrontend s ++ startFunctionCallActs isFn name callId arguments)
  | _ => (s, forwardFrontend s)

/-- C8: on a model-leg error of type `invalid_value` whose message reports
the audio content being shorter than the requested end time,
`handleModelMessage` recovers locally: all four utterance-tracking fields
are unset, the open telephony leg receives exactly one clear event, no
connection is closed or otherwise touched, and the event is not forwarded
to the observer leg. -/
theorem C8_truncation_error_recovery (s : Session) (m : String)
    (h1 : strIncludes m "Audio content" = true)
    (h2 : strIncludes m "shorter than" = true)
    (htw : s.twilioConn = some ConnState.opened)
    (hsid : s.streamSid.isSome = true) :
    trackingCleared
      (handleModelMessage s (MEvent.errorEvt (some "invalid_value") (some m))).1 ∧
    (handleModelMessage s (MEvent.errorEvt (some "invalid_value") (some m))).1.twilioConn
      = s.twilioConn ∧
    (handleModelMessage s (MEvent.errorEvt (some "invalid_value") (some m))).1.modelConn
      = s.modelConn ∧
    (handleModelMessage s (MEvent.errorEvt (some "invalid_value") (some m))).2 =
      [Action.sendTwilio TwilioEvent.clear] := by
  have herr : isTruncationTimingError (some "invalid_value") (some m) = true := by
    simp [isTruncationTimingError, h1, h2]
  have heq : handleModelMessage s (MEvent.errorEvt (some "invalid_value") (some m)) =
      (resetAudioTracking s, [Action.sendTwilio TwilioEvent.clear]) := by
    simp [handleModelMessage, herr, htw, hsid, isOpen]
  rw [heq]
  exact ⟨by simp [trackingCleared, resetAudioTracking],
    by simp [resetAudioTracking], by simp [resetAudioTracking], rfl⟩

/-- Witness for `C8_truncation_error_recovery` at a concrete session and
error message. -/
theorem C8_truncation_error_recovery_witness :
    (handleModelMessage
        { twilioConn := some ConnState.opened
          modelConn := some ConnState.opened
          streamSid := some "MZ0008"
          lastAssistantItem := some "item_8"
          responseStartTimestamp := some 0
          latestMediaTimestamp := some 400
          audioDurationMs := some 120
          audioChunkCount := some 6 }
        (MEvent.errorEvt (some "invalid_value")
          (some "Audio content of 120ms is already shorter than 400ms"))).2 =
      [Action.sendTwilio TwilioEvent.clear] :=
  (C8_truncation_error_recovery
    { twilioConn := some ConnState.opened
      modelConn := some ConnState.opened
      streamSid := some "MZ0008"
      lastAssistantItem := some "item_8"
      responseStartTimestamp := some 0
      latestMediaTimestamp := some 400
      audioDurationMs := some 120
      audioChunkCount := some 6 }
    "Audio content of 120ms is already shorter than 400ms"
    (by decide) (by decide) rfl (by decide)).2.2.2

/-- The module-level `sessionControl` record of functionHandlers.ts,
shared by all sessions (it is not a field of any per-call `Session`). -/
structure SessionControl where
  shouldHangUp : Bool
  hangUpReason : String
  shouldPlayConsentDenialAudio : Bool
  consentHandled : Bool
  shouldUpdateFunctions : Bool
deriving DecidableEq, Repr

/-- The initialiser of `sessionControl` in functionHandlers.ts. -/
def initialSessionControl : SessionControl :=
  { shouldHangUp := false
    hangUpReason := ""
    shouldPlayConsentDenialAudio := false
    consentHandled := false
    shouldUpdateFunctions := false }

/-- JSON object payloads are modelled as flat strings; braces are escaped
per our string conventions. -/
def jsonErrorPayload (msg : String) : String :=
  "\x7b\"error\":\"" ++ msg ++ "\"\x7d"

/-- Effect of the `continue_with_consent` handler on the shared control
record, with its returned payload. -/
def continueWithConsentHandler (c : SessionControl) : SessionControl × String :=
  ({ c with consentHandled := true, shouldUpdateFunctions := true },
    "\x7b\"status\":\"consent_granted\",\"action\":\"continue\",\"message\":\"Consent granted, continuing with normal conversation\"\x7d")

/-- Effect of the `clarify_consent` handler: no flags are updated (the
call stays in the consent phase), only a payload is returned. -/
def clarifyConsentHandler (c : SessionControl) : SessionControl × String :=
  (c,
    "\x7b\"status\":\"clarification_needed\",\"action\":\"clarify\",\"message\":\"Please clarify if you consent to recording\"\x7d")

/-- Effect of the `hang_up_call` handler: always sets `shouldHangUp` and
the reason; for reason `consent_denied` additionally flags the denial
audio, marks consent handled and requests the function swap. -/
def hangUpCallHandler (reason : String) (c : SessionControl) :
    SessionControl × String :=
  let c1 := { c with shouldHangUp := true, hangUpReason := reason }
  let c2 :=
    if reason = "consent_denied" then
      { c1 with
        shouldPlayConsentDenialAudio := true
        consentHandled := true
        shouldUpdateFunctions := true }
    else c1
  (c2,
    "\x7b\"status\":\"hang_up_initiated\",\"action\":\"hang_up\",\"reason\":\""
      ++ reason ++ "\"\x7d")

/-- The flag reset performed by `handleModelMessage` at the end of the
hang-up block: `shouldHangUp`, `hangUpReason` and
`shouldPlayConsentDenialAudio` are cleared; `consentHandled` and
`shouldUpdateFunctions` are NOT touched. -/
def completionFlagReset (c : SessionControl) : SessionControl :=
  { c with
    shouldHangUp := false
    hangUpReason := ""
    shouldPlayConsentDenialAudio := false }

/-- Every operation in the repository that can write the shared
`sessionControl` record: the six registered tool handlers and the
flag reset of the function-call completion path. -/
inductive ControlOp where
  | continueWithConsent
  | clarifyConsent
  | hangUpCall (reason : String)
  | piiStatement
  | tavilySearch
  | getWeather
  | completionReset
deriving DecidableEq, Repr

/-- Effect of one operation on the shared control record (the three
non-consent tools never touch it). -/
def applyControlOp (op : ControlOp) (c : SessionControl) : SessionControl :=
  match op with
  | ControlOp.continueWithConsent => (continueWithConsentHandler c).1
  | ControlOp.clarifyConsent => (clarifyConsentHandler c).1
  | ControlOp.hangUpCall reason => (hangUpCallHandler reason c).1
  | ControlOp.piiStatement => c
  | ControlOp.tavilySearch => c
  | ControlOp.getWeather => c
  | ControlOp.completionReset => completionFlagReset c

/-- Effect of a sequence of operations, first op applied first. -/
def applyControlOps (ops : List ControlOp) (c : SessionControl) : SessionControl :=
  match ops with
  | [] => c
  | op :: rest => applyControlOps rest (applyControlOp op c)

/-- Number of `ConsentPending → Active` transitions (flips of
`consentHandled` from `false` to `true`) along an operation sequence. -/
def consentTransitions (ops : List ControlOp) (c : SessionControl) : Nat :=
  match ops with
  | [] => 0
  | op :: rest =>
    let c' := applyControlOp op c
    (if c.consentHandled = false ∧ c'.consentHandled = true then 1 else 0) +
      consentTransitions rest c'

lemma consentHandled_mono_step (op : ControlOp) (c : SessionControl)
    (h : c.consentHandled = true) : (applyControlOp op c).consentHandled = true := by
  cases op <;>
    simp [applyControlOp, continueWithConsentHandler, clarifyConsentHandler,
      hangUpCallHandler, completionFlagReset, h]
  case hangUpCall reason => split <;> simp [h]

lemma consentHandled_mono (ops : List ControlOp) (c : SessionControl)
    (h : c.consentHandled = true) :
    (applyControlOps ops c).consentHandled = true := by
  induction ops generalizing c with
  | nil => exact h
  | cons op rest ih =>
    exact ih (applyControlOp op c) (consentHandled_mono_step op c h)

lemma consentTransitions_zero_of_handled (ops : List ControlOp)
    (c : SessionControl) (h : c.consentHandled = true) :
    consentTransitions ops c = 0 := by
  induction ops generalizing c with
  | nil => rfl
  | cons op rest ih =>
    have h' := consentHandled_mono_step op c h
    simp [consentTransitions, h, h', ih (applyControlOp op c) h']

lemma consentTransitions_le_one (ops : List ControlOp) (c : SessionControl) :
    consentTransitions ops c ≤ 1 := by
  induction ops generalizing c with
  | nil => simp [consentTransitions]
  | cons op rest ih =>
    by_cases h : (applyControlOp op c).consentHandled = true
    · by_cases h0 : c.consentHandled = false
      · simp [consentTransitions, h, h0,
          consentTransitions_zero_of_handled rest _ h]
      · simp only [consentTransitions, h0, false_and, if_neg, ite_false]
        simpa using ih (applyControlOp op c)
    · have : (applyControlOp op c).consentHandled = false := by
        revert h; cases (applyControlOp op c).consentHandled <;> simp
      simp only [consentTransitions, this, and_false, ite_false]
      simpa using ih (applyControlOp op c)

lemma consentHandled_after_continue (ops : List ControlOp) (c : SessionControl)
    (hmem : ControlOp.continueWithConsent ∈ ops) :
    (applyControlOps ops c).consentHandled = true := by
  induction ops generalizing c with
  | nil => cases hmem
  | cons op rest ih =>
    rcases List.mem_cons.mp hmem with heq | hmem'
    · subst heq
      by_cases hrest : ControlOp.continueWithConsent ∈ rest
      · exact ih _ hrest
      · exact consentHandled_mono rest _
          (by simp [applyControlOp, continueWithConsentHandler])
    · exact ih _ hmem'

lemma consentTransitions_pos (ops : List ControlOp) (c : SessionControl)
    (h0 : c.consentHandled = false)
    (hfin : (applyControlOps ops c).consentHandled = true) :
    1 ≤ consentTransitions ops c := by
  induction ops generalizing c with
  | nil => simp [applyControlOps] at hfin; rw [hfin] at h0; cases h0
  | cons op rest ih =>
    by_cases h : (applyControlOp op c).consentHandled = true
    · simp [consentTransitions, h0, h]
    · have h' : (applyControlOp op c).consentHandled = false := by
        revert h; cases (applyControlOp op c).consentHandled <;> simp
      have := ih (applyControlOp op c) h' hfin
      simp only [consentTransitions, h', and_false, ite_false]
      omega

/-- C9: the consent phase is monotonic.  Over every sequence of
control-record operations occurring in the repository: (a) once
`consentHandled` is `true` (phase `Active`) it stays `true` — no
operation, including the hang-up flag reset, returns it to
`ConsentPending`; (b) the `false → true` transition happens at most once
in any run; (c) in a call starting at `ConsentPending` in which
`continue_with_consent` is invoked, the transition happens exactly
once. -/
theorem C9_consent_monotonic (ops : List ControlOp) (c : SessionControl) :
    (c.consentHandled = true → (applyControlOps ops c).consentHandled = true) ∧
    consentTransitions ops c ≤ 1 ∧
    (c.consentHandled = false → ControlOp.continueWithConsent ∈ ops →
      consentTransitions ops c = 1) := by
  refine ⟨fun h => consentHandled_mono ops c h, consentTransitions_le_one ops c,
    fun h0 hmem => ?_⟩
  have h1 := consentTransitions_pos ops c h0
    (consentHandled_after_continue ops c hmem)
  have h2 := consentTransitions_le_one ops c
  omega

/-- Witness for `C9_consent_monotonic` at a concrete run: consent granted,
then a hang-up with reset, then another consent resolution attempt. -/
theorem C9_consent_monotonic_witness :
    (applyControlOps
        [ControlOp.continueWithConsent, ControlOp.clarifyConsent,
          ControlOp.hangUpCall "user_request", ControlOp.completionReset]
        initialSessionControl).consentHandled = true ∧
    consentTransitions
        [ControlOp.continueWithConsent, ControlOp.clarifyConsent,
          ControlOp.hangUpCall "user_request", ControlOp.completionReset]
        initialSessionControl = 1 :=
  ⟨by
    have h := (C9_consent_monotonic
      [ControlOp.clarifyConsent, ControlOp.hangUpCall "user_request",
        ControlOp.completionReset]
      (applyControlOp ControlOp.continueWithConsent initialSessionControl)).1
    exact h (by decide),
    (C9_consent_monotonic
      [ControlOp.continueWithConsent, ControlOp.clarifyConsent,
        ControlOp.hangUpCall "user_request", ControlOp.completionReset]
      initialSessionControl).2.2 (by decide) (by decide)⟩

/-- Names of the tools registered in functionHandlers.ts, in registration
order. -/
def functionNames : List String :=
  ["handle_pii_statement", "continue_with_consent", "clarify_consent",
    "hang_up_call", "tavily_search", "get_weather_from_coords"]

/-- `getConsentFunctions()` from functionHandlers.ts. -/
def getConsentFunctions : List String :=
  ["hang_up_call", "continue_with_consent", "clarify_consent"]

/-- Names produced by `getNonConsentFunctions()` (the service subset). -/
def getNonConsentFunctionNames : List String :=
  functionNames.filter (fun n => !(getConsentFunctions.contains n))

/-- Instruction text bound to the model leg, modelled by identity:
`base` is `SYSTEM_PROMPT_BASE`, `withConsent` is
`SYSTEM_PROMPT_WITH_CONSENT`, `custom t` a saved-config override. -/
inductive Instructions where
  | base
  | withConsent
  | custom (text : String)
deriving DecidableEq, Repr

/-- `SYSTEM_PROMPT` in systemPrompt.ts is defined as
`SYSTEM_PROMPT_BASE` (the backward-compatible default). -/
def SYSTEM_PROMPT : Instructions := Instructions.base

/-- The parts of the `session.update` setup message synthesized by
`tryConnectModel` that the claims concern: the bound instruction text and
the tool list. -/
structure SessionSetup where
  instructions : Instructions
  tools : List String
deriving DecidableEq, Repr

/-- The setup message `tryConnectModel` sends on model-leg open:
`instructions: config.instructions || SYSTEM_PROMPT` and
`tools: functions.map(…)` over the full registry.  It does not read
`sessionControl` at all. -/
def tryConnectModelSetup (savedInstructions : Option Instructions) : SessionSetup :=
  { instructions := savedInstructions.getD SYSTEM_PROMPT
    tools := functionNames }

/-- C6 evidence (code bug): after `continue_with_consent` runs, the
shared control record requests the capability swap
(`consentHandled` and `shouldUpdateFunctions` both become `true` — the
single phase transition), yet every session-setup message the session
manager can send still binds the FULL tool registry: it contains all
three consent-subset tools and therefore differs from the service
subset, and no code path consumes `shouldUpdateFunctions`.  This
contradicts the repository's own consent-handling documentation, which
says the consent tools are removed after the transition. -/
theorem C6_setup_keeps_consent_tools :
    (continueWithConsentHandler initialSessionControl).1.consentHandled = true ∧
    (continueWithConsentHandler initialSessionControl).1.shouldUpdateFunctions = true ∧
    (tryConnectModelSetup none).instructions = Instructions.base ∧
    "continue_with_consent" ∈ (tryConnectModelSetup none).tools ∧
    "hang_up_call" ∈ (tryConnectModelSetup none).tools ∧
    "clarify_consent" ∈ (tryConnectModelSetup none).tools ∧
    "hang_up_call" ∉ getNonConsentFunctionNames ∧
    (tryConnectModelSetup none).tools ≠ getNonConsentFunctionNames := by
  decide

/-- Parse outcome of a tool invocation's argument payload:
`malformed` models a `JSON.parse` throw; `hangUp r` a parsed payload
whose `reason` field is `r`; `wellFormed` any other parsed payload. -/
inductive FnArgs where
  | malformed
  | hangUp (reason : String)
  | wellFormed
deriving DecidableEq, Repr

/-- Result of awaiting a tool handler whose effect depends on external
I/O (`tavily_search`, `get_weather_from_coords`): the promise resolves
with a string or rejects. -/
inductive HandlerOutcome where
  | ok (result : String)
  | threw (msg : String)
deriving DecidableEq, Repr

/-- The fixed payload of the `handle_pii_statement` handler. -/
def piiPayload : String :=
  "\x7b\"message\":\"I notice you\x27ve shared personal information. For your privacy and security, please avoid sharing personally identifiable information (PII) such as names, addresses, phone numbers, email addresses, or ID numbers in our conversation. I\x27m here to help with general information about city services and procedures without needing your personal details.\"\x7d"

/-- Running the resolved handler for a registered tool: the four local
handlers always resolve (the consent ones additionally update the shared
control record); the two I/O-backed handlers resolve or reject according
to `outcome`. -/
def runHandler (name : String) (args : FnArgs) (c : SessionControl)
    (outcome : HandlerOutcome) : Except String (SessionControl × String) :=
  if name = "continue_with_consent" then Except.ok (continueWithConsentHandler c)
  else if name = "clarify_consent" then Except.ok (clarifyConsentHandler c)
  else if name = "hang_up_call" then
    Except.ok (hangUpCallHandler
      (match args with
       | FnArgs.hangUp r => r
       | _ => "") c)
  else if name = "handle_pii_statement" then Except.ok (c, piiPayload)
  else
    match outcome with
    | HandlerOutcome.ok r => Except.ok (c, r)
    | HandlerOutcome.threw m => Except.error m

/-- Shallow embedding of `handleFunctionCall(item)`: an unregistered name
throws (`Except.error`, rejecting the promise); malformed JSON arguments
return a structured error payload without invoking the handler; a handler
rejection is caught and converted into a structured error payload.  The
returned pair is the (possibly updated) shared control record and the
output string handed to the completion callback. -/
def handleFunctionCall (name : String) (args : FnArgs) (c : SessionControl)
    (outcome : HandlerOutcome) : Except String (SessionControl × String) :=
  if name ∈ functionNames then
    match args with
    | FnArgs.malformed =>
      Except.ok (c, jsonErrorPayload "Invalid JSON arguments for function call.")
    | _ =>
      match runHandler name args c outcome with
      | Except.ok r => Except.ok r
      | Except.error m =>
        Except.ok (c, jsonErrorPayload ("Error running function " ++ name ++ ": " ++ m))
  else
    Except.error ("No handler found for function: " ++ name)

/-- `JSON.stringify` applied to the handler output string, modelled as
plain quoting. -/
def jsonQuote (out : String) : String := "\"" ++ out ++ "\""

/-- `jsonSend(session.modelConn, e)`: emits only when the model leg is
open. -/
def jsonSendModel (s : Session) (e : ModelEvent) : List Action :=
  if isOpen s.modelConn then [Action.sendModel e] else []

/-- Shallow embedding of the function-call completion callback (the
`.then((output) => …)` body of `handleModelMessage`'s
`response.output_item.done` branch): sends the `function_call_output`
item followed by `response.create`, then — when the shared control
record requests a hang-up — closes the model leg immediately, and either
schedules the pre-rendered denial audio (chunk `i` after `i * 20` ms and
the telephony-leg close after `chunkCount * 20 + 1000` ms) or closes the
telephony leg at once.  The returned components are the updated session,
the updated shared control record, the synchronous actions in order and
the scheduled timers as (delay in ms, action) pairs; timers fire strictly
after the synchronous actions, and each scheduled send re-checks at fire
time that its leg is still open. -/
def functionCallCompletion (s : Session) (c : SessionControl)
    (callId : String) (output : String) (chunks : List String) :
    Session × SessionControl × List Action × List (Nat × Action) :=
  if s.modelConn.isSome then
    let sendActs :=
      jsonSendModel s (ModelEvent.itemCreateFunctionOutput callId (jsonQuote output)) ++
        jsonSendModel s ModelEvent.responseCreate
    if c.shouldHangUp then
      let closePair :=
        if s.modelConn.isSome ∧ isOpen s.modelConn then
          ({ s with modelConn := none }, [Action.closeModel])
        else (s, ([] : List Action))
      let s1 := closePair.1
      let closeActs := closePair.2
      if c.shouldPlayConsentDenialAudio ∧ s1.twilioConn.isSome ∧ s1.streamSid.isSome then
        let timers :=
          (List.range chunks.length).map (fun i =>
            (i * 20, Action.sendTwilio (TwilioEvent.media (chunks.getD i "")))) ++
            [(chunks.length * 20 + 1000, Action.closeTwilio)]
        (s1, completionFlagReset c, sendActs ++ closeActs, timers)
      else
        let closeTw :=
          if s1.twilioConn.isSome ∧ isOpen s1.twilioConn then
            [Action.closeTwilio]
          else []
        (s1, completionFlagReset c, sendActs ++ closeActs ++ closeTw, [])
    else (s, c, sendActs, [])
  else (s, c, [], [])

lemma functionCallCompletion_structure (s : Session) (c : SessionControl)
    (callId output : String) (chunks : List String)
    (hmodel : s.modelConn = some ConnState.opened) :
    ∃ rest,
      (functionCallCompletion s c callId output chunks).2.2.1 =
        Action.sendModel (ModelEvent.itemCreateFunctionOutput callId (jsonQuote output)) ::
          Action.sendModel ModelEvent.responseCreate :: rest ∧
      (∀ a ∈ rest, a = Action.closeModel ∨ a = Action.closeTwilio) ∧
      (c.shouldHangUp = false →
        functionCallCompletion s c callId output chunks =
          (s, c,
            [Action.sendModel (ModelEvent.itemCreateFunctionOutput callId (jsonQuote output)),
              Action.sendModel ModelEvent.responseCreate], [])) := by
  have hsome : s.modelConn.isSome = true := by simp [hmodel]
  have hopen : isOpen s.modelConn = true := by simp [isOpen, hmodel]
  by_cases hh : c.shouldHangUp = true
  · by_cases hd : c.shouldPlayConsentDenialAudio = true ∧
        s.twilioConn.isSome = true ∧ s.streamSid.isSome = true
    · refine ⟨[Action.closeModel], ?_, ?_, ?_⟩
      · simp [functionCallCompletion, hsome, hh, hopen, hd, jsonSendModel]
      · intro a ha
        simp only [List.mem_singleton] at ha
        exact Or.inl ha
      · intro hfalse; rw [hh] at hfalse; cases hfalse
    · by_cases htw : s.twilioConn.isSome = true ∧ isOpen s.twilioConn = true
      · have hd2 : ¬(c.shouldPlayConsentDenialAudio = true ∧ s.streamSid.isSome = true) :=
          fun h => hd ⟨h.1, htw.1, h.2⟩
        refine ⟨[Action.closeModel, Action.closeTwilio], ?_, ?_, ?_⟩
        · simp [functionCallCompletion, hsome, hh, hopen, hd2, htw.1, htw.2,
            jsonSendModel]
        · intro a ha
          simp only [List.mem_cons, List.not_mem_nil, or_false] at ha
          exact ha
        · intro hfalse; rw [hh] at hfalse; cases hfalse
      · refine ⟨[Action.closeModel], ?_, ?_, ?_⟩
        · simp [functionCallCompletion, hsome, hh, hopen, hd, htw, jsonSendModel]
        · intro a ha
          simp only [List.mem_singleton] at ha
          exact Or.inl ha
        · intro hfalse; rw [hh] at hfalse; cases hfalse
  · have hh' : c.shouldHangUp = false := by
      revert hh; cases c.shouldHangUp <;> simp
    refine ⟨[], ?_, by simp, fun _ => ?_⟩ <;>
      simp [functionCallCompletion, hsome, hh', hopen, jsonSendModel]

lemma handleFunctionCall_ok (name : String) (args : FnArgs) (c : SessionControl)
    (outcome : HandlerOutcome) (hname : name ∈ functionNames) :
    ∃ p, handleFunctionCall name args c outcome = Except.ok p := by
  unfold handleFunctionCall
  rw [if_pos hname]
  cases args with
  | malformed => exact ⟨_, rfl⟩
  | hangUp r =>
    cases hr : runHandler name (FnArgs.hangUp r) c outcome with
    | ok p => exact ⟨p, rfl⟩
    | error m => exact ⟨_, rfl⟩
  | wellFormed =>
    cases hr : runHandler name FnArgs.wellFormed c outcome with
    | ok p => exact ⟨p, rfl⟩
    | error m => exact ⟨_, rfl⟩

lemma handleFunctionCall_malformed (name : String) (c : SessionControl)
    (outcome : HandlerOutcome) (hname : name ∈ functionNames) :
    handleFunctionCall name FnArgs.malformed c outcome =
      Except.ok (c, jsonErrorPayload "Invalid JSON arguments for function call.") := by
  unfold handleFunctionCall
  rw [if_pos hname]

lemma handleFunctionCall_threw (name : String) (c : SessionControl) (m : String)
    (hio : name = "tavily_search" ∨ name = "get_weather_from_coords") :
    handleFunctionCall name FnArgs.wellFormed c (HandlerOutcome.threw m) =
      Except.ok (c, jsonErrorPayload ("Error running function " ++ name ++ ": " ++ m)) := by
  rcases hio with rfl | rfl <;> rfl

/-- C7: dispatch of a `response.output_item.done` function-call item for a
registered tool, with the model leg set and open and no hang-up pending,
always yields exactly one `conversation.item.create` event carrying the
`function_call_output`, followed by exactly one `response.create`, with
at most connection-close actions after them; when the argument payload is
malformed JSON, or the I/O-backed handler throws, that single output is
the structured error payload, nothing else is scheduled, and the session
state and control record are untouched (the session is not
terminated). -/
theorem C7_dispatch_roundtrip (s : Session) (c : SessionControl)
    (name callId : String) (args : FnArgs) (outcome : HandlerOutcome)
    (chunks : List String)
    (hname : name ∈ functionNames)
    (hmodel : s.modelConn = some ConnState.opened)
    (hc : c.shouldHangUp = false) :
    ∃ c' out rest,
      handleFunctionCall name args c outcome = Except.ok (c', out) ∧
      (functionCallCompletion s c' callId out chunks).2.2.1 =
        Action.sendModel (ModelEvent.itemCreateFunctionOutput callId (jsonQuote out)) ::
          Action.sendModel ModelEvent.responseCreate :: rest ∧
      (∀ a ∈ rest, a = Action.closeModel ∨ a = Action.closeTwilio) ∧
      (args = FnArgs.malformed →
        out = jsonErrorPayload "Invalid JSON arguments for function call." ∧
        functionCallCompletion s c' callId out chunks =
          (s, c,
            [Action.sendModel (ModelEvent.itemCreateFunctionOutput callId (jsonQuote out)),
              Action.sendModel ModelEvent.responseCreate], [])) ∧
      (∀ e, outcome = HandlerOutcome.threw e → args = FnArgs.wellFormed →
        name = "tavily_search" ∨ name = "get_weather_from_coords" →
        out = jsonErrorPayload ("Error running function " ++ name ++ ": " ++ e) ∧
        functionCallCompletion s c' callId out chunks =
          (s, c,
            [Action.sendModel (ModelEvent.itemCreateFunctionOutput callId (jsonQuote out)),
              Action.sendModel ModelEvent.responseCreate], [])) := by
  obtain ⟨⟨c', out⟩, hfc⟩ := handleFunctionCall_ok name args c outcome hname
  obtain ⟨rest, hacts, hclose, hnohang⟩ :=
    functionCallCompletion_structure s c' callId out chunks hmodel
  refine ⟨c', out, rest, hfc, hacts, hclose, ?_, ?_⟩
  · rintro rfl
    have := handleFunctionCall_malformed name c outcome hname
    rw [hfc] at this
    obtain ⟨rfl, rfl⟩ : c' = c ∧
        out = jsonErrorPayload "Invalid JSON arguments for function call." := by
      have h := Except.ok.inj this
      exact ⟨congrArg Prod.fst h, congrArg Prod.snd h⟩
    exact ⟨rfl, hnohang hc⟩
  · rintro e rfl rfl hio
    have := handleFunctionCall_threw name c e hio
    rw [hfc] at this
    obtain ⟨rfl, rfl⟩ : c' = c ∧
        out = jsonErrorPayload ("Error running function " ++ name ++ ": " ++ e) := by
      have h := Except.ok.inj this
      exact ⟨congrArg Prod.fst h, congrArg Prod.snd h⟩
    exact ⟨rfl, hnohang hc⟩

/-- Witness for `C7_dispatch_roundtrip`: the `tavily_search` tool invoked
with malformed JSON arguments in a session with both legs open. -/
theorem C7_dispatch_roundtrip_witness :
    ∃ c' out rest,
      handleFunctionCall "tavily_search" FnArgs.malformed initialSessionControl
          (HandlerOutcome.ok "r") = Except.ok (c', out) ∧
      (functionCallCompletion
          { twilioConn := some ConnState.opened
            modelConn := some ConnState.opened
            streamSid := some "MZ0007" }
          c' "call_7" out []).2.2.1 =
        Action.sendModel (ModelEvent.itemCreateFunctionOutput "call_7" (jsonQuote out)) ::
          Action.sendModel ModelEvent.responseCreate :: rest := by
  obtain ⟨c', out, rest, h1, h2, -⟩ :=
    C7_dispatch_roundtrip
      { twilioConn := some ConnState.opened
        modelConn := some ConnState.opened
        streamSid := some "MZ0007" }
      initialSessionControl "tavily_search" "call_7" FnArgs.malformed
      (HandlerOutcome.ok "r") [] (by decide) rfl rfl
  exact ⟨c', out, rest, h1, h2⟩

lemma hangUpCallHandler_flags (reason : String) (c : SessionControl) :
    (hangUpCallHandler reason c).1.shouldHangUp = true ∧
    (hangUpCallHandler "consent_denied" c).1.shouldPlayConsentDenialAudio = true := by
  constructor
  · simp only [hangUpCallHandler]
    split <;> rfl
  · rfl

/-- C5: when a completed function call finds the hang-up flags set with
consent-denial audio requested (the `hang_up_call` tool having run with
reason `consent_denied`), the completion callback closes the model leg
synchronously — before any denial-audio media frame, all of which are
scheduled timers firing strictly later — schedules denial chunk `i` at
`i * 20` ms, and schedules the telephony-leg close at
`chunkCount * 20 + 1000` ms, strictly after every media frame. -/
theorem C5_denial_audio_ordering (s : Session) (c0 : SessionControl)
    (callId output : String) (chunks : List String)
    (hmodel : s.modelConn = some ConnState.opened)
    (htw : s.twilioConn.isSome = true)
    (hsid : s.streamSid.isSome = true) :
    Action.closeModel ∈
      (functionCallCompletion s (hangUpCallHandler "consent_denied" c0).1
        callId output chunks).2.2.1 ∧
    (∀ p, Action.sendTwilio (TwilioEvent.media p) ∉
      (functionCallCompletion s (hangUpCallHandler "consent_denied" c0).1
        callId output chunks).2.2.1) ∧
    (functionCallCompletion s (hangUpCallHandler "consent_denied" c0).1
        callId output chunks).1.modelConn = none ∧
    (∀ i, i < chunks.length →
      (i * 20, Action.sendTwilio (TwilioEvent.media (chunks.getD i ""))) ∈
        (functionCallCompletion s (hangUpCallHandler "consent_denied" c0).1
          callId output chunks).2.2.2) ∧
    (chunks.length * 20 + 1000, Action.closeTwilio) ∈
      (functionCallCompletion s (hangUpCallHandler "consent_denied" c0).1
        callId output chunks).2.2.2 ∧
    (∀ d p, (d, Action.sendTwilio (TwilioEvent.media p)) ∈
        (functionCallCompletion s (hangUpCallHandler "consent_denied" c0).1
          callId output chunks).2.2.2 →
      d < chunks.length * 20 + 1000) := by
  have hsome : s.modelConn.isSome = true := by simp [hmodel]
  have hopen : isOpen s.modelConn = true := by simp [isOpen, hmodel]
  have hc : (hangUpCallHandler "consent_denied" c0).1.shouldHangUp = true :=
    (hangUpCallHandler_flags "consent_denied" c0).1
  have hd : (hangUpCallHandler "consent_denied" c0).1.shouldPlayConsentDenialAudio = true :=
    (hangUpCallHandler_flags "consent_denied" c0).2
  have hr : functionCallCompletion s (hangUpCallHandler "consent_denied" c0).1
      callId output chunks =
      ({ s with modelConn := none },
        completionFlagReset (hangUpCallHandler "consent_denied" c0).1,
        [Action.sendModel (ModelEvent.itemCreateFunctionOutput callId (jsonQuote output)),
          Action.sendModel ModelEvent.responseCreate, Action.closeModel],
        (List.range chunks.length).map (fun i =>
          (i * 20, Action.sendTwilio (TwilioEvent.media (chunks.getD i "")))) ++
          [(chunks.length * 20 + 1000, Action.closeTwilio)]) := by
    simp [functionCallCompletion, hsome, hopen, hc, hd, htw, hsid, jsonSendModel]
  rw [hr]
  refine ⟨by simp, ?_, rfl, ?_, ?_, ?_⟩
  · intro p
    simp
  · intro i h
    exact List.mem_append_left _ (List.mem_map.2 ⟨i, List.mem_range.2 h, rfl⟩)
  · exact List.mem_append_right _ (List.mem_singleton.2 rfl)
  · intro d p hmem
    rcases List.mem_append.1 hmem with hm | hm
    · obtain ⟨i, hi, heq⟩ := List.mem_map.1 hm
      have hi' := List.mem_range.1 hi
      have hfst : i * 20 = d := congrArg Prod.fst heq
      omega
    · rw [List.mem_singleton] at hm
      have : Action.sendTwilio (TwilioEvent.media p) = Action.closeTwilio :=
        congrArg Prod.snd hm
      cases this

/-- Witness for `C5_denial_audio_ordering` at a concrete session and a
two-chunk denial recording. -/
theorem C5_denial_audio_ordering_witness :
    Action.closeModel ∈
      (functionCallCompletion
        { twilioConn := some ConnState.opened
          modelConn := some ConnState.opened
          streamSid := some "MZ0005" }
        (hangUpCallHandler "consent_denied" initialSessionControl).1
        "call_5" "out5" ["aa", "bb"]).2.2.1 ∧
    ((1 : Nat) * 20,
        Action.sendTwilio (TwilioEvent.media (["aa", "bb"].getD 1 ""))) ∈
      (functionCallCompletion
        { twilioConn := some ConnState.opened
          modelConn := some ConnState.opened
          streamSid := some "MZ0005" }
        (hangUpCallHandler "consent_denied" initialSessionControl).1
        "call_5" "out5" ["aa", "bb"]).2.2.2 :=
  ⟨(C5_denial_audio_ordering
      { twilioConn := some ConnState.opened
        modelConn := some ConnState.opened
        streamSid := some "MZ0005" }
      initialSessionControl "call_5" "out5" ["aa", "bb"] rfl rfl rfl).1,
    (C5_denial_audio_ordering
      { twilioConn := some ConnState.opened
        modelConn := some ConnState.opened
        streamSid := some "MZ0005" }
      initialSessionControl "call_5" "out5" ["aa", "bb"] rfl rfl rfl).2.2.2.1
      1 (by decide)⟩

lemma functionCallCompletion_hangup (s : Session) (c : SessionControl)
    (callId out : String) (chunks : List String)
    (hmodel : s.modelConn = some ConnState.opened)
    (hc : c.shouldHangUp = true) :
    (functionCallCompletion s c callId out chunks).1 = { s with modelConn := none } ∧
    (functionCallCompletion s c callId out chunks).2.1 = completionFlagReset c ∧
    Action.closeModel ∈ (functionCallCompletion s c callId out chunks).2.2.1 := by
  have hsome : s.modelConn.isSome = true := by simp [hmodel]
  have hopen : isOpen s.modelConn = true := by simp [isOpen, hmodel]
  by_cases hd : c.shouldPlayConsentDenialAudio = true ∧
      s.twilioConn.isSome = true ∧ s.streamSid.isSome = true
  · refine ⟨?_, ?_, ?_⟩ <;>
      simp [functionCallCompletion, hsome, hopen, hc, hd, jsonSendModel]
  · by_cases htw : s.twilioConn.isSome = true ∧ isOpen s.twilioConn = true
    · have hd2 : ¬(c.shouldPlayConsentDenialAudio = true ∧ s.streamSid.isSome = true) :=
        fun h => hd ⟨h.1, htw.1, h.2⟩
      refine ⟨?_, ?_, ?_⟩ <;>
        simp [functionCallCompletion, hsome, hopen, hc, hd2, htw.1, htw.2, jsonSendModel]
    · refine ⟨?_, ?_, ?_⟩ <;>
        simp [functionCallCompletion, hsome, hopen, hc, hd, htw, jsonSendModel]

/-- The global state shared by all concurrently active calls: the single
module-level `sessionControl` record next to the per-call sessions.
`sessionControl` is NOT a field of any `Session`. -/
structure World where
  control : SessionControl
  sessions : Nat → Session

/-- The `hang_up_call` handler running during some session: it mutates
only the module-level control record; the invoking session (first
argument) does not influence the result, as the handler has no access to
it. -/
def invokeHangUp (_invoker : Nat) (reason : String) (w : World) : World :=
  { w with control := (hangUpCallHandler reason w.control).1 }

/-- A function-call completion processed in session `b`: it reads the
shared control record, applies its side effects to session `b`'s own
connections, and writes the reset flags back to the shared record. -/
def completionInSession (b : Nat) (callId out : String) (chunks : List String)
    (w : World) : World × List Action × List (Nat × Action) :=
  let r := functionCallCompletion (w.sessions b) w.control callId out chunks
  ({ control := r.2.1,
      sessions := fun n => if n = b then r.1 else w.sessions n },
    r.2.2.1, r.2.2.2)

/-- C10: the consent/hang-up control state is one module-level record
shared by all sessions.  Invoking `hang_up_call` during session `a`
updates state that does not depend on `a` and touches no session; the
next function-call completion processed in ANY session `b` (with its
model leg open) observes the flag, closes `b`'s own model-leg
connection, and resets `shouldHangUp`, `hangUpReason` and
`shouldPlayConsentDenialAudio` in the shared record. -/
theorem C10_shared_control_cross_session (w : World) (a a' b : Nat)
    (reason callId out : String) (chunks : List String)
    (hmodel : (w.sessions b).modelConn = some ConnState.opened) :
    (invokeHangUp a reason w).control = (invokeHangUp a' reason w).control ∧
    (∀ n, (invokeHangUp a reason w).sessions n = w.sessions n) ∧
    (invokeHangUp a reason w).control.shouldHangUp = true ∧
    Action.closeModel ∈
      (completionInSession b callId out chunks (invokeHangUp a reason w)).2.1 ∧
    ((completionInSession b callId out chunks
        (invokeHangUp a reason w)).1.sessions b).modelConn = none ∧
    (completionInSession b callId out chunks
        (invokeHangUp a reason w)).1.control.shouldHangUp = false ∧
    (completionInSession b callId out chunks
        (invokeHangUp a reason w)).1.control.hangUpReason = "" ∧
    (completionInSession b callId out chunks
        (invokeHangUp a reason w)).1.control.shouldPlayConsentDenialAudio = false := by
  have hc : (invokeHangUp a reason w).control.shouldHangUp = true :=
    (hangUpCallHandler_flags reason w.control).1
  have hmodel' : ((invokeHangUp a reason w).sessions b).modelConn =
      some ConnState.opened := hmodel
  obtain ⟨h1, h2, h3⟩ := functionCallCompletion_hangup
    ((invokeHangUp a reason w).sessions b) (invokeHangUp a reason w).control
    callId out chunks hmodel' hc
  refine ⟨rfl, fun n => rfl, hc, h3, ?_, ?_, ?_, ?_⟩
  · have hsb : (completionInSession b callId out chunks
        (invokeHangUp a reason w)).1.sessions b =
        (functionCallCompletion ((invokeHangUp a reason w).sessions b)
          (invokeHangUp a reason w).control callId out chunks).1 := by
      simp [completionInSession]
    rw [hsb, h1]
  · simp only [completionInSession]
    rw [h2]
    rfl
  · simp only [completionInSession]
    rw [h2]
    rfl
  · simp only [completionInSession]
    rw [h2]
    rfl

/-- Witness for `C10_shared_control_cross_session`: `hang_up_call`
invoked during session 0, the next completion processed in session 1. -/
theorem C10_shared_control_cross_session_witness :
    Action.closeModel ∈
      (completionInSession 1 "call_10" "out10" []
        (invokeHangUp 0 "user_request"
          { control := initialSessionControl
            sessions := fun _ =>
              { twilioConn := some ConnState.opened
                modelConn := some ConnState.opened
                streamSid := some "MZ0010" } })).2.1 ∧
    (completionInSession 1 "call_10" "out10" []
        (invokeHangUp 0 "user_request"
          { control := initialSessionControl
            sessions := fun _ =>
              { twilioConn := some ConnState.opened
                modelConn := some ConnState.opened
                streamSid := some "MZ0010" } })).1.control.shouldHangUp = false := by
  have h := C10_shared_control_cross_session
    { control := initialSessionControl
      sessions := fun _ =>
        { twilioConn := some ConnState.opened
          modelConn := some ConnState.opened
          streamSid := some "MZ0010" } }
    0 0 1 "user_request" "call_10" "out10" [] rfl
  exact ⟨h.2.2.2.1, h.2.2.2.2.2.1⟩

/-- Association-list lookup, the abstract semantics of
`sessions.get(key)` on the `Map` keyed by stream id. -/
def lookupAL (k : String) : List (String × Nat) → Option Nat
  | [] => none
  | (k0, v) :: rest => if k0 = k then some v else lookupAL k rest

/-- Removal of a key's binding, the abstract semantics of
`sessions.delete(key)` (a `Map` holds at most one binding per key; under
the no-duplicate-keys invariant this removes it). -/
def eraseKey (k : String) : List (String × Nat) → List (String × Nat)
  | [] => []
  | (k0, v) :: rest =>
    if k0 = k then eraseKey k rest else (k0, v) :: eraseKey k rest

lemma lookupAL_eraseKey_self (k : String) (l : List (String × Nat)) :
    lookupAL k (eraseKey k l) = none := by
  induction l with
  | nil => rfl
  | cons p rest ih =>
    obtain ⟨k0, v⟩ := p
    by_cases h : k0 = k
    · simp [eraseKey, h, ih]
    · simp [eraseKey, lookupAL, h, ih]

lemma lookupAL_eraseKey_ne (k q : String) (h : q ≠ k) (l : List (String × Nat)) :
    lookupAL q (eraseKey k l) = lookupAL q l := by
  induction l with
  | nil => rfl
  | cons p rest ih =>
    obtain ⟨k0, v⟩ := p
    by_cases h0 : k0 = k
    · subst h0
      have h1 : ¬ (k0 = q) := fun he => h (he ▸ rfl)
      simp [eraseKey, lookupAL, h1, ih]
    · by_cases h1 : k0 = q
      · simp [eraseKey, lookupAL, h0, h1, h]
      · simp [eraseKey, lookupAL, h0, h1, ih]

lemma lookupAL_none_of_forall (k : String) (l : List (String × Nat))
    (h : ∀ p ∈ l, p.1 ≠ k) : lookupAL k l = none := by
  induction l with
  | nil => rfl
  | cons p rest ih =>
    obtain ⟨k0, v⟩ := p
    have hk0 : k0 ≠ k := h (k0, v) (List.mem_cons_self _ _)
    simp only [lookupAL, if_neg hk0]
    exact ih fun q hq => h q (List.mem_cons_of_mem _ hq)

lemma forall_of_lookupAL_none (k : String) (l : List (String × Nat))
    (h : lookupAL k l = none) : ∀ p ∈ l, p.1 ≠ k := by
  induction l with
  | nil => intro p hp; cases hp
  | cons p rest ih =>
    obtain ⟨k0, v⟩ := p
    intro q hq
    by_cases h0 : k0 = k
    · simp [lookupAL, h0] at h
    · rcases List.mem_cons.1 hq with rfl | hq'
      · exact h0
      · refine ih ?_ q hq'
        simpa [lookupAL, h0] using h

lemma eraseKey_of_lookupAL_none (k : String) (l : List (String × Nat))
    (h : lookupAL k l = none) : eraseKey k l = l := by
  induction l with
  | nil => rfl
  | cons p rest ih =>
    obtain ⟨k0, v⟩ := p
    by_cases h0 : k0 = k
    · simp [lookupAL, h0] at h
    · simp only [eraseKey, if_neg h0]
      rw [ih (by simpa [lookupAL, h0] using h)]

lemma eraseKey_sublist (k : String) (l : List (String × Nat)) :
    (eraseKey k l).Sublist l := by
  induction l with
  | nil => exact List.Sublist.refl _
  | cons p rest ih =>
    obtain ⟨k0, v⟩ := p
    by_cases h0 : k0 = k
    · simp only [eraseKey, if_pos h0]
      exact ih.cons _
    · simp only [eraseKey, if_neg h0]
      exact ih.cons₂ _

lemma mem_of_mem_eraseKey (k : String) (p : String × Nat)
    (l : List (String × Nat)) (h : p ∈ eraseKey k l) : p ∈ l ∧ p.1 ≠ k := by
  induction l with
  | nil => cases h
  | cons q rest ih =>
    obtain ⟨k0, v⟩ := q
    by_cases h0 : k0 = k
    · simp only [eraseKey, if_pos h0] at h
      obtain ⟨h1, h2⟩ := ih h
      exact ⟨List.mem_cons_of_mem _ h1, h2⟩
    · simp only [eraseKey, if_neg h0] at h
      rcases List.mem_cons.1 h with rfl | h'
      · exact ⟨List.mem_cons_self _ _, h0⟩
      · obtain ⟨h1, h2⟩ := ih h'
        exact ⟨List.mem_cons_of_mem _ h1, h2⟩

lemma lookupAL_some_mem (k : String) (v : Nat) (l : List (String × Nat))
    (h : lookupAL k l = some v) : (k, v) ∈ l := by
  induction l with
  | nil => cases h
  | cons p rest ih =>
    obtain ⟨k0, v0⟩ := p
    by_cases h0 : k0 = k
    · subst h0
      have h' : v0 = v := by simpa [lookupAL] using h
      subst h'
      exact List.mem_cons_self _ _
    · simp only [lookupAL, if_neg h0] at h
      exact List.mem_cons_of_mem _ (ih h)

/-- State of the per-process session registry: the `Map` from session key
(temporary id or stream id) to session object, the set of session objects
created so far (each telephony connection owns exactly one session object
via its `sessionRef`, so connections are identified with their session
objects), and the `tempSessionId` / `streamSid` fields stored on each
session object. -/
structure RelayState where
  registry : List (String × Nat)
  live : List Nat
  tempIdOf : Nat → Option String
  streamSidOf : Nat → Option String

/-- The key a frame arriving on connection `o` resolves to:
`currentSession.streamSid || currentSession.tempSessionId` (the session
object is reached through the connection's fixed `sessionRef`). -/
def sessionKey (st : RelayState) (o : Nat) : Option String :=
  match st.streamSidOf o with
  | some k => some k
  | none => st.tempIdOf o

/-- Registry-relevant events: a new telephony connection
(`handleCallConnection`, creating the session under a fresh temporary
key), a `start` frame (rebinding to the transport-assigned stream id),
and any media frame (dispatched through the registry). -/
inductive REvent where
  | connect (o : Nat) (tempKey : String)
  | start (o : Nat) (realSid : String)
  | media (o : Nat)
deriving DecidableEq, Repr

/-- One registry transition, paired with the frame deliveries it
performs (pairs of connection and the session object the frame was
handled under).  `connect` mirrors `getSession(tempSessionId)` plus the
field writes of `handleCallConnection`; `start` mirrors
`sessions.delete(sessionId); sessions.set(realStreamSid, session);
session.streamSid = realStreamSid`; `media` mirrors the lookup in
`handleTwilioMessage` (a missing session is logged and dropped). -/
def step (st : RelayState) : REvent → RelayState × List (Nat × Nat)
  | REvent.connect o t =>
    ({ registry := (t, o) :: eraseKey t st.registry
       live := o :: st.live
       tempIdOf := fun n => if n = o then some t else st.tempIdOf n
       streamSidOf := fun n => if n = o then none else st.streamSidOf n }, [])
  | REvent.start o sid =>
    match sessionKey st o with
    | none => (st, [])
    | some k =>
      match lookupAL k st.registry with
      | none => (st, [])
      | some o2 =>
        ({ registry := (sid, o2) :: eraseKey sid (eraseKey k st.registry)
           live := st.live
           tempIdOf := st.tempIdOf
           streamSidOf := fun n => if n = o2 then some sid else st.streamSidOf n }, [])
  | REvent.media o =>
    match sessionKey st o with
    | none => (st, [])
    | some k =>
      match lookupAL k st.registry with
      | none => (st, [])
      | some o2 => (st, [(o, o2)])

/-- Registry well-formedness: keys are duplicate-free, every live session
resolves through its own key to itself, and every binding belongs to a
live session whose current key it is. -/
def WF (st : RelayState) : Prop :=
  (st.registry.map Prod.fst).Nodup ∧
  (∀ o ∈ st.live, (sessionKey st o).isSome = true ∧
    lookupAL ((sessionKey st o).getD "") st.registry = some o) ∧
  (∀ p ∈ st.registry, p.2 ∈ st.live ∧ sessionKey st p.2 = some p.1)

/-- Environment assumptions per event: connection ids and temporary keys
are fresh at connect time, transport-assigned stream ids are fresh at
start time (Twilio stream ids are unique), and media frames arrive only
on connections that exist. -/
def freshEvent (st : RelayState) : REvent → Prop
  | REvent.connect o t => o ∉ st.live ∧ lookupAL t st.registry = none
  | REvent.start _ sid => lookupAL sid st.registry = none
  | REvent.media o => o ∈ st.live

/-- All events of a trace satisfy their freshness assumption at the state
where they fire. -/
def validTrace (st : RelayState) : List REvent → Prop
  | [] => True
  | e :: es => freshEvent st e ∧ validTrace (step st e).1 es

/-- Run a trace, accumulating deliveries in order. -/
def runTrace (st : RelayState) : List REvent → RelayState × List (Nat × Nat)
  | [] => (st, [])
  | e :: es =>
    ((runTrace (step st e).1 es).1, (step st e).2 ++ (runTrace (step st e).1 es).2)

lemma wf_step (st : RelayState) (e : REvent) (hwf : WF st)
    (hfr : freshEvent st e) : WF (step st e).1 := by
  obtain ⟨hnd, hcomp, hsound⟩ := hwf
  cases e with
  | connect o t =>
    obtain ⟨ho, ht⟩ := hfr
    have her : eraseKey t st.registry = st.registry :=
      eraseKey_of_lookupAL_none t _ ht
    have hreg : (step st (REvent.connect o t)).1.registry =
        (t, o) :: st.registry := by simp [step, her]
    have hlive : (step st (REvent.connect o t)).1.live = o :: st.live := by
      simp [step]
    have hkeyo : sessionKey (step st (REvent.connect o t)).1 o = some t := by
      simp [step, sessionKey]
    have hkeyn : ∀ n, n ≠ o →
        sessionKey (step st (REvent.connect o t)).1 n = sessionKey st n := by
      intro n hn
      simp [step, sessionKey, hn]
    have htnotkey : ∀ p ∈ st.registry, p.1 ≠ t :=
      forall_of_lookupAL_none t _ ht
    refine ⟨?_, ?_, ?_⟩
    · rw [hreg]
      simp only [List.map_cons]
      refine List.nodup_cons.mpr ⟨?_, hnd⟩
      intro hmem
      obtain ⟨p, hp, hpt⟩ := List.mem_map.1 hmem
      exact htnotkey p hp hpt
    · rw [hlive, hreg]
      intro o' ho'
      rcases List.mem_cons.1 ho' with rfl | ho''
      · rw [hkeyo]
        exact ⟨rfl, by simp [lookupAL]⟩
      · have hne : o' ≠ o := fun he => ho (he ▸ ho'')
        rw [hkeyn o' hne]
        obtain ⟨hs1, hs2⟩ := hcomp o' ho''
        obtain ⟨k, hk⟩ := Option.isSome_iff_exists.1 hs1
        rw [hk] at hs2 ⊢
        simp only [Option.getD_some] at hs2 ⊢
        have hkt : ¬ (t = k) := by
          intro he
          subst he
          rw [ht] at hs2
          cases hs2
        refine ⟨rfl, ?_⟩
        simp only [lookupAL, if_neg hkt]
        exact hs2
    · rw [hreg]
      intro p hp
      rcases List.mem_cons.1 hp with rfl | hp'
      · rw [hlive]
        exact ⟨List.mem_cons_self _ _, hkeyo⟩
      · obtain ⟨hl, hk⟩ := hsound p hp'
        have hne : p.2 ≠ o := fun he => ho (he ▸ hl)
        rw [hlive, hkeyn p.2 hne]
        exact ⟨List.mem_cons_of_mem _ hl, hk⟩
  | start o sid =>
    cases hk : sessionKey st o with
    | none =>
      have hst : (step st (REvent.start o sid)).1 = st := by simp [step, hk]
      rw [hst]
      exact ⟨hnd, hcomp, hsound⟩
    | some k =>
      cases hlk : lookupAL k st.registry with
      | none =>
        have hst : (step st (REvent.start o sid)).1 = st := by
          simp [step, hk, hlk]
        rw [hst]
        exact ⟨hnd, hcomp, hsound⟩
      | some o2 =>
        obtain ⟨ho2live, ho2key⟩ := hsound (k, o2) (lookupAL_some_mem k o2 _ hlk)
        have hsid_erase : lookupAL sid (eraseKey k st.registry) = none := by
          by_cases hek : sid = k
          · subst hek
            exact lookupAL_eraseKey_self _ _
          · rw [lookupAL_eraseKey_ne k sid hek]
            exact hfr
        have her2 : eraseKey sid (eraseKey k st.registry) = eraseKey k st.registry :=
          eraseKey_of_lookupAL_none _ _ hsid_erase
        have hstep : (step st (REvent.start o sid)).1 =
            { registry := (sid, o2) :: eraseKey k st.registry
              live := st.live
              tempIdOf := st.tempIdOf
              streamSidOf := fun n => if n = o2 then some sid else st.streamSidOf n } := by
          simp [step, hk, hlk, her2]
        have hreg : (step st (REvent.start o sid)).1.registry =
            (sid, o2) :: eraseKey k st.registry := by rw [hstep]
        have hlive : (step st (REvent.start o sid)).1.live = st.live := by
          rw [hstep]
        have hkeyo2 : sessionKey (step st (REvent.start o sid)).1 o2 = some sid := by
          rw [hstep]
          simp [sessionKey]
        have hkeyn : ∀ n, n ≠ o2 →
            sessionKey (step st (REvent.start o sid)).1 n = sessionKey st n := by
          intro n hn
          rw [hstep]
          simp [sessionKey, hn]
        refine ⟨?_, ?_, ?_⟩
        · rw [hreg]
          simp only [List.map_cons]
          refine List.nodup_cons.mpr ⟨?_, ?_⟩
          · intro hmem
            obtain ⟨p, hp, hpt⟩ := List.mem_map.1 hmem
            exact forall_of_lookupAL_none sid _ hsid_erase p hp hpt
          · exact List.Nodup.sublist
              (List.Sublist.map Prod.fst (eraseKey_sublist k st.registry)) hnd
        · rw [hlive, hreg]
          intro o' ho'
          by_cases heq : o' = o2
          · subst heq
            rw [hkeyo2]
            exact ⟨rfl, by simp [lookupAL]⟩
          · rw [hkeyn o' heq]
            obtain ⟨hs1, hs2⟩ := hcomp o' ho'
            obtain ⟨k', hk'⟩ := Option.isSome_iff_exists.1 hs1
            rw [hk'] at hs2 ⊢
            simp only [Option.getD_some] at hs2 ⊢
            have hk'sid : ¬ (sid = k') := by
              intro he
              subst he
              rw [hfr] at hs2
              cases hs2
            have hk'k : k' ≠ k := by
              intro he
              subst he
              rw [hlk] at hs2
              exact heq (Option.some.inj hs2).symm
            refine ⟨rfl, ?_⟩
            simp only [lookupAL, if_neg hk'sid]
            rw [lookupAL_eraseKey_ne k k' hk'k]
            exact hs2
        · rw [hreg]
          intro p hp
          rcases List.mem_cons.1 hp with rfl | hp'
          · rw [hlive]
            exact ⟨ho2live, hkeyo2⟩
          · obtain ⟨hmem, hne_k⟩ := mem_of_mem_eraseKey k p _ hp'
            obtain ⟨hl, hkey⟩ := hsound p hmem
            have hne : p.2 ≠ o2 := by
              intro he
              rw [he, ho2key] at hkey
              exact hne_k (Option.some.inj hkey).symm
            rw [hlive, hkeyn p.2 hne]
            exact ⟨hl, hkey⟩
  | media o =>
    have hst : (step st (REvent.media o)).1 = st := by
      cases hk : sessionKey st o with
      | none => simp [step, hk]
      | some k => cases hlk : lookupAL k st.registry <;> simp [step, hk, hlk]
    rw [hst]
    exact ⟨hnd, hcomp, hsound⟩

lemma step_deliveries (st : RelayState) (e : REvent) (hwf : WF st)
    (hfr : freshEvent st e) : ∀ d ∈ (step st e).2, d.2 = d.1 := by
  obtain ⟨hnd, hcomp, hsound⟩ := hwf
  cases e with
  | connect o t =>
    intro d hd
    simp [step] at hd
  | start o sid =>
    intro d hd
    cases hk : sessionKey st o with
    | none => simp [step, hk] at hd
    | some k =>
      cases hlk : lookupAL k st.registry with
      | none => simp [step, hk, hlk] at hd
      | some o2 => simp [step, hk, hlk] at hd
  | media o =>
    intro d hd
    obtain ⟨hs1, hs2⟩ := hcomp o hfr
    obtain ⟨k, hk⟩ := Option.isSome_iff_exists.1 hs1
    rw [hk] at hs2
    simp only [Option.getD_some] at hs2
    simp [step, hk, hs2] at hd
    rw [hd]

lemma runTrace_correct (tr : List REvent) (st : RelayState) (hwf : WF st)
    (hv : validTrace st tr) :
    WF (runTrace st tr).1 ∧ ∀ d ∈ (runTrace st tr).2, d.2 = d.1 := by
  induction tr generalizing st with
  | nil =>
    refine ⟨hwf, ?_⟩
    intro d hd
    simp [runTrace] at hd
  | cons e es ih =>
    obtain ⟨hfr, hv'⟩ := hv
    obtain ⟨hwf', hrest⟩ := ih (step st e).1 (wf_step st e hwf hfr) hv'
    refine ⟨hwf', ?_⟩
    intro d hd
    simp only [runTrace] at hd
    rcases List.mem_append.1 hd with h | h
    · exact step_deliveries st e hwf hfr d h
    · exact hrest d h

/-- C4: identity isolation of the session registry.  From any
well-formed registry state: (a) a `start` frame rebinding a live session
from its current key to a fresh transport-assigned stream id leaves the
session resolvable exactly under the new key — the connection's
subsequent frames resolve to `some sid`, the registry maps the new key to
the same session, and the old key to nothing; (b) along every valid
trace of interleaved connects, starts and media frames across any number
of concurrent sessions, every delivered frame is handled under the
session object of the connection it arrived on. -/
theorem C4_identity_isolation (st : RelayState) (hwf : WF st) :
    (∀ o sid k, o ∈ st.live → lookupAL sid st.registry = none →
      sessionKey st o = some k →
      sessionKey (step st (REvent.start o sid)).1 o = some sid ∧
      lookupAL sid (step st (REvent.start o sid)).1.registry = some o ∧
      lookupAL k (step st (REvent.start o sid)).1.registry = none) ∧
    (∀ tr, validTrace st tr → ∀ d ∈ (runTrace st tr).2, d.2 = d.1) := by
  obtain ⟨hnd, hcomp, hsound⟩ := hwf
  constructor
  · intro o sid k ho hfresh hk
    obtain ⟨hs1, hs2⟩ := hcomp o ho
    rw [hk] at hs2
    simp only [Option.getD_some] at hs2
    have hsid_erase : lookupAL sid (eraseKey k st.registry) = none := by
      by_cases hek : sid = k
      · subst hek
        exact lookupAL_eraseKey_self _ _
      · rw [lookupAL_eraseKey_ne k sid hek]
        exact hfresh
    have her2 : eraseKey sid (eraseKey k st.registry) = eraseKey k st.registry :=
      eraseKey_of_lookupAL_none _ _ hsid_erase
    have hstep : (step st (REvent.start o sid)).1 =
        { registry := (sid, o) :: eraseKey k st.registry
          live := st.live
          tempIdOf := st.tempIdOf
          streamSidOf := fun n => if n = o then some sid else st.streamSidOf n } := by
      simp [step, hk, hs2, her2]
    have hksid : ¬ (sid = k) := by
      intro he
      subst he
      rw [hfresh] at hs2
      cases hs2
    refine ⟨?_, ?_, ?_⟩
    · rw [hstep]
      simp [sessionKey]
    · rw [hstep]
      simp [lookupAL]
    · rw [hstep]
      simp only [lookupAL, if_neg hksid]
      exact lookupAL_eraseKey_self _ _
  · intro tr hv
    exact (runTrace_correct tr st ⟨hnd, hcomp, hsound⟩ hv).2

/-- The empty registry at process start. -/
def emptyRelayState : RelayState :=
  { registry := []
    live := []
    tempIdOf := fun _ => none
    streamSidOf := fun _ => none }

/-- Witness for `C4_identity_isolation`: a session connects under
temporary key `temp_0`, then migrates to stream id `MZ0001`. -/
theorem C4_identity_isolation_witness :
    sessionKey (step (step emptyRelayState (REvent.connect 0 "temp_0")).1
        (REvent.start 0 "MZ0001")).1 0 = some "MZ0001" ∧
    lookupAL "MZ0001" (step (step emptyRelayState (REvent.connect 0 "temp_0")).1
        (REvent.start 0 "MZ0001")).1.registry = some 0 ∧
    lookupAL "temp_0" (step (step emptyRelayState (REvent.connect 0 "temp_0")).1
        (REvent.start 0 "MZ0001")).1.registry = none :=
  (C4_identity_isolation (step emptyRelayState (REvent.connect 0 "temp_0")).1
    (by unfold WF; exact ⟨by decide, by decide, by decide⟩)).1
    0 "MZ0001" "temp_0" (by decide) (by decide) (by decide)

end Relay
